import Mathlib

/-!
Shallow embedding of the armory repository core (armory/utils/metrics.py and
armory/scenarios/poisoning_gtsrb_scenario.py) together with theorems settling
the frozen claims about it.

Conventions of the embedding:

* numpy arrays of rank at most two are modelled by `NPArr` over `ℚ`
  (the rational numbers stand for the exactly-representable numeric inputs;
  metric outputs, which Python produces as floats, are modelled in `ℝ`);
* every Python function that can raise returns `Except MErr _`, with one
  `MErr` constructor per distinct raise site that the model can reach;
* external library calls (numpy reductions, the random generator, the wall
  clock) are modelled by explicit Lean functions or by explicit parameters,
  as noted at each definition.
-/

namespace Armory

/-- Errors raised by the metrics module.  Each constructor corresponds to a
raise site in armory/utils/metrics.py: `invalidArgument` to the `n < 1` and
`p <= 0` checks, `dimensionMismatch` to the mismatched-dimensions ValueError,
`lengthMismatch` to the different-length ValueError, `mustSupplyMultiple` to
the same-shape ValueError in top-n accuracy, `shapeMismatch` to the shape
checks in the snr helpers, `notRank1` to the single-dimension check of `_snr`,
`emptyArgmax` to the ValueError numpy raises on argmax over an empty axis,
`typeError` to TypeError raise sites (int() of a multi-element array,
len() of a 0-d array, comparison of non-broadcastable arrays),
`indexError` to `x.shape[0]` on a 0-d array, `nameNotFound` to the KeyError
of the registry lookup, `corruptLedger` to the corrupted-ledger ValueError,
and `zeroDivision msg` to ZeroDivisionError with message `msg`. -/
inductive MErr where
  | invalidArgument
  | dimensionMismatch
  | lengthMismatch
  | mustSupplyMultiple
  | shapeMismatch
  | notRank1
  | emptyArgmax
  | typeError
  | indexError
  | nameNotFound
  | corruptLedger
  | zeroDivision (msg : String)
deriving DecidableEq

/-- A numpy array of rank at most two, the ranks the metric functions are
exercised at.  A rank-three argument can only arise in the dead wrap branch
of `categorical_accuracy`, which is modelled explicitly there. -/
inductive NPArr where
  | scalar (q : ℚ)
  | vec (v : List ℚ)
  | mat (m : List (List ℚ))
deriving DecidableEq

/-- Model of `.ndim`. -/
def NPArr.ndim : NPArr → ℕ
  | .scalar _ => 0
  | .vec _ => 1
  | .mat _ => 2

/-- Model of `.shape` (for a ragged matrix the column count of the first row
stands for the common column count of a well-formed array). -/
def NPArr.npShape : NPArr → List ℕ
  | .scalar _ => []
  | .vec v => [v.length]
  | .mat m => [m.length, (m.headD []).length]

/-- Model of Python `len()`: `none` models the TypeError on a 0-d array. -/
def NPArr.npLen : NPArr → Option ℕ
  | .scalar _ => none
  | .vec v => some v.length
  | .mat m => some m.length

/-- Model of Python iteration over an array: a 1-d array yields its scalar
entries, a 2-d array yields its rows; `none` models the TypeError on a 0-d
array. -/
def NPArr.npIter : NPArr → Option (List NPArr)
  | .scalar _ => none
  | .vec v => some (v.map NPArr.scalar)
  | .mat m => some (m.map NPArr.vec)

/-- Helper for `npArgmax`: scan the remaining entries, keeping the index of
the first maximum seen so far (numpy argmax keeps the first index on ties). -/
def npArgmaxAux : List ℚ → ℕ → ℕ → ℚ → ℕ
  | [], _, best, _ => best
  | a :: rest, i, best, bv =>
      if bv < a then npArgmaxAux rest (i + 1) i a
      else npArgmaxAux rest (i + 1) best bv

/-- Model of `np.argmax` on a rank-1 array.  Callers guard the empty case
(numpy raises there) with `MErr.emptyArgmax`. -/
def npArgmax : List ℚ → ℕ
  | [] => 0
  | a :: rest => npArgmaxAux rest 1 0 a

/-- Insertion step for `argsortAsc`. -/
def insertByVal (v : List ℚ) (i : ℕ) : List ℕ → List ℕ
  | [] => [i]
  | j :: rest =>
      if v.getD i 0 ≤ v.getD j 0 then i :: j :: rest
      else j :: insertByVal v i rest

/-- Model of `np.argsort` on a rank-1 array: the indices sorted by ascending
value.  numpy uses an unstable quicksort, so the order among equal values is
unspecified there; no claim depends on the tie order. -/
def argsortAsc (v : List ℚ) : List ℕ :=
  (List.range v.length).foldr (insertByVal v) []

/-- Model of the 0-d-wrapping prologue shared by `categorical_accuracy` and
`top_n_categorical_accuracy`: when `y` is 0-d, both inputs are wrapped by
`np.array([...])`.  `none` models the case of a 0-d `y` with a 2-d `y_pred`,
where the wrap would produce a rank-3 array: every caller then reaches the
mismatched-dimensions ValueError, exactly as the Python does (shape `(1,)`
versus a rank-3 shape fails both the equal-shape and the ndim+1 tests). -/
def wrapPair (y y_pred : NPArr) : Option (NPArr × NPArr) :=
  match y with
  | .scalar a =>
      match y_pred with
      | .scalar b => some (.vec [a], .vec [b])
      | .vec v => some (.vec [a], .mat [v])
      | .mat _ => none
  | _ => some (y, y_pred)

/-- Model of `categorical_accuracy` (metrics.py lines 22-39).  The inner
`if y.ndim == 0` of the argmax branch is dead code in Python (a 0-d `y` was
wrapped above) and has no counterpart here.  In the equal-shape 2-d case,
Python iterates `list(y == y_pred)` over rows and applies `int` to each row,
which raises TypeError unless rows have a single element; numpy broadcasting
of a length-1 operand in the argmax branch is not modelled (no claim reaches
it) and is folded into `typeError`. -/
def categorical_accuracy (y y_pred : NPArr) : Except MErr (List ℝ) :=
  match wrapPair y y_pred with
  | none => .error .dimensionMismatch
  | some (y, yp) =>
    if y.npShape = yp.npShape then
      match y, yp with
      | .vec u, .vec v =>
          .ok ((u.zip v).map (fun p => if p.1 = p.2 then (1 : ℝ) else 0))
      | .mat mu, .mat mv =>
          if (y.npShape).getD 1 0 = 1 then
            .ok ((mu.zip mv).map (fun p => if p.1 = p.2 then (1 : ℝ) else 0))
          else .error .typeError
      | _, _ => .error .typeError
    else if y.ndim + 1 = yp.ndim then
      match y, yp with
      | .vec u, .mat m =>
          if u.length ≠ m.length then .error .typeError
          else if m.any (fun r => r.isEmpty) then .error .emptyArgmax
          else .ok ((u.zip m).map
            (fun p => if p.1 = (npArgmax p.2 : ℚ) then (1 : ℝ) else 0))
      | _, _ => .error .dimensionMismatch
    else .error .dimensionMismatch

/-- Model of `top_n_categorical_accuracy` (metrics.py lines 49-71).
`n = int(n)` is the identity on the integer model of `n`. -/
def top_n_categorical_accuracy (y y_pred : NPArr) (n : ℤ) : Except MErr (List ℝ) :=
  if n < 1 then .error .invalidArgument
  else if n = 1 then categorical_accuracy y y_pred
  else
    match wrapPair y y_pred with
    | none => .error .dimensionMismatch
    | some (y, yp) =>
      match y.npLen, yp.npLen with
      | some ly, some lyp =>
        if ly ≠ lyp then .error .lengthMismatch
        else if y.npShape = yp.npShape then .error .mustSupplyMultiple
        else if y.ndim + 1 = yp.ndim then
          match y, yp with
          | .vec a, .mat m =>
              let tops := m.map (fun row =>
                (argsortAsc row).drop (row.length - n.toNat))
              .ok ((List.range a.length).map (fun i =>
                if (a.getD i 0) ∈ (tops.getD i []).map (fun k => (k : ℚ))
                then (1 : ℝ) else 0))
          | _, _ => .error .dimensionMismatch
        else .error .dimensionMismatch
      | _, _ => .error .typeError

/-- Model of `top_5_categorical_accuracy` (metrics.py lines 42-46). -/
def top_5_categorical_accuracy (y y_pred : NPArr) : Except MErr (List ℝ) :=
  top_n_categorical_accuracy y y_pred 5

/-- The `ord` argument of `np.linalg.norm`: either `np.inf` or a number. -/
inductive NormOrd where
  | inf
  | val (p : ℝ)

/-- Model of `np.linalg.norm(v, ord)` on a rank-1 array: for `ord = 0` numpy
computes the count of nonzero entries, for `ord = inf` the maximum absolute
value, otherwise the p-norm `(sum |v_i| ^ p) ^ (1/p)`. -/
noncomputable def npLinalgNorm (v : List ℚ) : NormOrd → ℝ
  | .inf => (v.map (fun a : ℚ => |(a : ℝ)|)).foldr max 0
  | .val p =>
      if p = 0 then ((v.filter (fun a => a ≠ 0)).length : ℝ)
      else ((v.map (fun a : ℚ => |(a : ℝ)| ^ p)).sum) ^ (1 / p)

/-- Model of `diff.reshape(x.shape[0], -1)` on the per-sample view: a 1-d
batch becomes a column of singleton rows, a 2-d batch keeps its rows;
`none` models the IndexError of `x.shape[0]` on a 0-d array. -/
def toRows : NPArr → Option (List (List ℚ))
  | .scalar _ => none
  | .vec v => some (v.map (fun a => [a]))
  | .mat m => some m

/-- Model of `norm` (metrics.py lines 74-83): per-sample p-norm of the
float-cast difference.  numpy broadcasting between distinct compatible shapes
is not modelled (no claim reaches it): unequal shapes report
`shapeMismatch`. -/
noncomputable def norm (x x_adv : NPArr) (ord : NormOrd) : Except MErr (List ℝ) :=
  match toRows x, toRows x_adv with
  | some rx, some ry =>
      if x.npShape = x_adv.npShape then
        .ok ((rx.zip ry).map (fun pr =>
          npLinalgNorm ((pr.1.zip pr.2).map (fun q => q.1 - q.2)) ord))
      else .error .shapeMismatch
  | _, _ => .error .indexError

/-- Model of `linf` (metrics.py lines 86-90). -/
noncomputable def linf (x x_adv : NPArr) : Except MErr (List ℝ) :=
  norm x x_adv .inf

/-- Model of `l2` (metrics.py lines 93-97). -/
noncomputable def l2 (x x_adv : NPArr) : Except MErr (List ℝ) :=
  norm x x_adv (.val 2)

/-- Model of `l1` (metrics.py lines 100-104). -/
noncomputable def l1 (x x_adv : NPArr) : Except MErr (List ℝ) :=
  norm x x_adv (.val 1)

/-- Model of `lp` (metrics.py lines 107-113); named `lp'` because Mathlib
already declares `lp`. -/
noncomputable def lp' (x x_adv : NPArr) (p : ℝ) : Except MErr (List ℝ) :=
  if p ≤ 0 then .error .invalidArgument
  else norm x x_adv (.val p)

/-- Model of `l0` (metrics.py lines 116-120). -/
noncomputable def l0 (x x_adv : NPArr) : Except MErr (List ℝ) :=
  norm x x_adv (.val 0)

/-- Model of `_snr` (metrics.py lines 123-132): mean squared signal over mean
squared noise for one rank-1 sample.  The quotient is computed in `ℚ` and
cast; the Lean zero-division convention (0 for a zero denominator) stands in
for the float inf/nan that numpy produces there, and every theorem below
keeps the denominator nonzero. -/
def snrSample (x_i x_adv_i : NPArr) : Except MErr ℝ :=
  if x_i.npShape ≠ x_adv_i.npShape then .error .shapeMismatch
  else
    match x_i, x_adv_i with
    | .vec u, .vec v =>
        let n : ℚ := u.length
        let signal_power := (u.map (fun a => a ^ 2)).sum / n
        let noise_power := ((u.zip v).map (fun p => (p.1 - p.2) ^ 2)).sum / n
        .ok ((signal_power / noise_power : ℚ) : ℝ)
    | _, _ => .error .notRank1

/-- Model of `snr` (metrics.py lines 135-141). -/
def snr (x x_adv : NPArr) : Except MErr (List ℝ) :=
  match x.npIter, x_adv.npIter with
  | some xs, some ys =>
      if xs.length ≠ ys.length then .error .lengthMismatch
      else (xs.zip ys).mapM (fun p => snrSample p.1 p.2)
  | _, _ => .error .typeError

/-- Model of `snr_db` (metrics.py lines 144-148). -/
noncomputable def snr_db (x x_adv : NPArr) : Except MErr (List ℝ) :=
  (snr x x_adv).map (List.map (fun r => 10 * Real.logb 10 r))

/-- Flat list of the entries of an array, row-major. -/
def NPArr.flatVals : NPArr → List ℚ
  | .scalar q => [q]
  | .vec v => v
  | .mat m => m.flatten

/-- Model of `_snr_spectrogram` (metrics.py lines 151-158): mean absolute
signal over mean absolute noise; unlike `_snr` it accepts any rank. -/
def snrSpectrogramSample (x_i x_adv_i : NPArr) : Except MErr ℝ :=
  if x_i.npShape ≠ x_adv_i.npShape then .error .shapeMismatch
  else
    let u := x_i.flatVals
    let v := x_adv_i.flatVals
    let n : ℚ := u.length
    let signal_power := (u.map (fun a => |a|)).sum / n
    let noise_power := ((u.zip v).map (fun p => |p.1 - p.2|)).sum / n
    .ok ((signal_power / noise_power : ℚ) : ℝ)

/-- Model of `snr_spectrogram` (metrics.py lines 197-210). -/
def snr_spectrogram (x x_adv : NPArr) : Except MErr (List ℝ) :=
  if x.npShape ≠ x_adv.npShape then .error .shapeMismatch
  else
    match x.npIter, x_adv.npIter with
    | some xs, some ys => (xs.zip ys).mapM (fun p => snrSpectrogramSample p.1 p.2)
    | _, _ => .error .typeError

/-- Model of `snr_spectrogram_db` (metrics.py lines 213-217). -/
noncomputable def snr_spectrogram_db (x x_adv : NPArr) : Except MErr (List ℝ) :=
  (snr_spectrogram x x_adv).map (List.map (fun r => 10 * Real.logb 10 r))

/-- Model of the `SUPPORTED_METRICS` registry (metrics.py lines 220-234)
restricted to its two-argument entries, the only ones `MetricList.append`
can invoke with a `(y, y_pred)` pair.  The three-argument entries
(`top_n_categorical_accuracy`, `norm`, `lp`) sit in the same Python dict but
raise TypeError when called through that interface and are not representable
in this binary-function table. -/
noncomputable def SUPPORTED_METRICS :
    String → Option (NPArr → NPArr → Except MErr (List ℝ)) := fun name =>
  if name = "categorical_accuracy" then some categorical_accuracy
  else if name = "top_5_categorical_accuracy" then some top_5_categorical_accuracy
  else if name = "l0" then some l0
  else if name = "l1" then some l1
  else if name = "l2" then some l2
  else if name = "linf" then some linf
  else if name = "snr" then some snr
  else if name = "snr_db" then some snr_db
  else if name = "snr_spectrogram" then some snr_spectrogram
  else if name = "snr_spectrogram_db" then some snr_spectrogram_db
  else none

/-- Model of `MetricList` (metrics.py lines 237-272): a name, the resolved
scoring function and the accumulated per-sample scores. -/
structure MetricList where
  name : String
  function : NPArr → NPArr → Except MErr (List ℝ)
  values : List ℝ

/-- Model of `MetricList.__init__` (metrics.py lines 242-253): with no
explicit function the name is resolved through `SUPPORTED_METRICS`, raising
KeyError on an unknown name.  The ValueError branch for a non-callable
explicit function has no counterpart: every Lean function is callable. -/
noncomputable def mkMetricList (name : String)
    (function : Option (NPArr → NPArr → Except MErr (List ℝ))) :
    Except MErr MetricList :=
  match function with
  | none =>
      match SUPPORTED_METRICS name with
      | some f => .ok ⟨name, f, []⟩
      | none => .error .nameNotFound
  | some f => .ok ⟨name, f, []⟩

/-- Model of `MetricList.clear` (metrics.py lines 255-256). -/
def MetricList.clear (m : MetricList) : MetricList :=
  { m with values := [] }

/-- Model of `MetricList.append` (metrics.py lines 258-260): run the scoring
function and extend the accumulated sequence with its per-sample output. -/
def MetricList.append (m : MetricList) (y y_pred : NPArr) :
    Except MErr MetricList :=
  (m.function y y_pred).map (fun v => { m with values := m.values ++ v })

/-- Model of `MetricList.mean` (metrics.py lines 271-272): Python divides by
`len(self._values)` and raises ZeroDivisionError with message
`division by zero` when no scores have been accumulated. -/
noncomputable def MetricList.mean (m : MetricList) : Except MErr ℝ :=
  match m.values with
  | [] => .error (.zeroDivision "division by zero")
  | l => .ok (l.sum / l.length)

/-- The profiler modes accepted by `resource_context` and `MetricsLogger`.
A string outside `["Basic", "Deterministic"]` raises ValueError in
`resource_context`; only the valid modes are representable here and no claim
exercises the invalid-string branch. -/
inductive Profiler where
  | basic
  | deterministic
deriving DecidableEq

/-- One entry of the computational-resource ledger.  Python stores a
`defaultdict(lambda: 0)`, so a field read through `+=` defaults to zero when
absent; `Option` keeps track of which keys are present, which is what the
corrupted-ledger check in `MetricsLogger.results` inspects. -/
structure LedgerEntry where
  execution_count : Option ℕ
  total_time : Option ℚ
  stats : Option String
deriving DecidableEq

/-- The shared computational-resource ledger, a name-keyed mapping in
insertion order. -/
abbrev Ledger := List (String × LedgerEntry)

/-- How a scoped `with resource_context(...)` region exits: normally, or by
an error raised inside the region. -/
inductive RegionExit where
  | normal
  | raised
deriving DecidableEq

/-- Model of `resource_context` (metrics.py lines 161-194) as a transition on
the ledger.  The wall clock and the serialized profile are external inputs,
passed as `elapsed` and `profileText`.  The generator has no try/finally
around its `yield`: when the region raises, the exception is re-thrown at the
`yield` and every statement after it is skipped, so the ledger is returned
unchanged.  On a normal exit with a profiler set, the entry for `name` is
created on first use (with an empty `stats` string when Deterministic), its
`execution_count` is incremented, `total_time` accumulates `elapsed`, and
(Deterministic only) `stats` accumulates the serialized profile. -/
def resource_context (name : String) (profiler : Option Profiler)
    (elapsed : ℚ) (profileText : String) (dict : Ledger)
    (exitKind : RegionExit) : Ledger :=
  match profiler with
  | none => dict
  | some prof =>
    match exitKind with
    | .raised => dict
    | .normal =>
      let dict' :=
        if (dict.lookup name).isSome then dict
        else dict ++ [(name,
          { execution_count := none, total_time := none,
            stats := if prof = .deterministic then some "" else none })]
      dict'.map (fun kv =>
        if kv.1 = name then
          (kv.1,
            { execution_count := some ((kv.2.execution_count.getD 0) + 1),
              total_time := some ((kv.2.total_time.getD 0) + elapsed),
              stats := if prof = .deterministic
                       then some ((kv.2.stats.getD "") ++ profileText)
                       else kv.2.stats })
        else kv)

/-- A value of the flat results mapping produced by `MetricsLogger.results`:
a scalar mean or average time, a per-sample list, or a profiler-stats
string. -/
inductive RVal where
  | num (r : ℝ)
  | list (l : List ℝ)
  | str (s : String)

/-- Model of `MetricsLogger` state (metrics.py lines 275-310). -/
structure MetricsLogger where
  tasks : List MetricList
  adversarial_tasks : List MetricList
  perturbations : List MetricList
  means : Bool
  full : Bool
  computational_resource_dict : Ledger

/-- The task or perturbation argument of the `MetricsLogger` constructor:
absent, a single name, or a list of names.  The ValueError branch for any
other Python type has no counterpart here. -/
abbrev MetricNames := Option (String ⊕ List String)

/-- Model of `MetricsLogger._generate_counters` (metrics.py lines 312-321). -/
noncomputable def generate_counters (names : MetricNames) :
    Except MErr (List MetricList) :=
  (match names with
   | none => []
   | some (.inl s) => [s]
   | some (.inr l) => l).mapM (fun n => mkMetricList n none)

/-- Model of `MetricsLogger.__init__` (metrics.py lines 280-310).  Both the
benign and the adversarial group are generated from the same `task` names.
Line 300 assigns a fresh empty dict to `self.computational_resource_dict`,
ignoring the constructor argument entirely; `profiler_type` is likewise never
read.  The two no-results warnings are log output only. -/
noncomputable def mkMetricsLogger (task perturbation : MetricNames)
    (means record_metric_per_sample : Bool)
    (profiler_type : Option Profiler)
    (computational_resource_dict : Option Ledger) :
    Except MErr MetricsLogger := do
  let ts ← generate_counters task
  let adv ← generate_counters task
  let perts ← generate_counters perturbation
  .ok { tasks := ts, adversarial_tasks := adv, perturbations := perts,
        means := means, full := record_metric_per_sample,
        computational_resource_dict := [] }

/-- Model of `MetricsLogger.clear` (metrics.py lines 327-329). -/
def MetricsLogger.clear (L : MetricsLogger) : MetricsLogger :=
  { L with tasks := L.tasks.map MetricList.clear,
           adversarial_tasks := L.adversarial_tasks.map MetricList.clear,
           perturbations := L.perturbations.map MetricList.clear }

/-- Model of `MetricsLogger.update_task` (metrics.py lines 331-334). -/
def MetricsLogger.update_task (L : MetricsLogger) (y y_pred : NPArr)
    (adversarial : Bool) : Except MErr MetricsLogger :=
  if adversarial then
    (L.adversarial_tasks.mapM (fun m : MetricList => m.append y y_pred)).map
      (fun ts => { L with adversarial_tasks := ts })
  else
    (L.tasks.mapM (fun m : MetricList => m.append y y_pred)).map
      (fun ts => { L with tasks := ts })

/-- Model of `MetricsLogger.update_perturbation` (metrics.py lines 336-338). -/
def MetricsLogger.update_perturbation (L : MetricsLogger) (x x_adv : NPArr) :
    Except MErr MetricsLogger :=
  (L.perturbations.mapM (fun m : MetricList => m.append x x_adv)).map
    (fun ps => { L with perturbations := ps })

/-- The entries `MetricsLogger.results` produces for one metric of one group
(metrics.py lines 369-378): the raw per-sample sequence when
`record_metric_per_sample`, then the mean when `means`, re-raising the
ZeroDivisionError of an empty mean with a message naming the offending
metric. -/
noncomputable def resultEntries (full means : Bool) (pfx : String) (m : MetricList) :
    Except MErr (List (String × RVal)) :=
  let e1 := if full then [(pfx ++ "_" ++ m.name, RVal.list m.values)] else []
  if means then
    match m.mean with
    | .ok v => .ok (e1 ++ [(pfx ++ "_mean_" ++ m.name, RVal.num v)])
    | .error _ =>
        .error (.zeroDivision
          ("No values to calculate mean in " ++ pfx ++ "_" ++ m.name))
  else .ok e1

/-- The entries `MetricsLogger.results` produces for one group of metrics,
in order. -/
noncomputable def groupEntries (full means : Bool) (pfx : String) :
    List MetricList → Except MErr (List (String × RVal))
  | [] => .ok []
  | m :: rest =>
      (resultEntries full means pfx m).bind (fun e =>
        (groupEntries full means pfx rest).map (fun r => e ++ r))

/-- The entries `MetricsLogger.results` produces from the resource ledger
(metrics.py lines 380-393): a corrupted-entry check, then an average-time
entry and, when present, a profiler-stats entry per name. -/
noncomputable def ledgerEntries : Ledger → Except MErr (List (String × RVal))
  | [] => .ok []
  | (name, e) :: rest =>
      match e.execution_count, e.total_time with
      | some c, some t =>
          (ledgerEntries rest).map (fun r =>
            ([("Avg. CPU time (s) for " ++ toString c ++ " executions of "
                ++ name, RVal.num ((t : ℝ) / (c : ℝ)))]
              ++ (match e.stats with
                  | some s => [(name ++ " profiler stats", RVal.str s)]
                  | none => [])) ++ r)
      | _, _ => .error .corruptLedger

/-- Model of `MetricsLogger.results` (metrics.py lines 359-394): the benign,
adversarial and perturbation groups in order, then the ledger summary. -/
noncomputable def MetricsLogger.results (L : MetricsLogger) :
    Except MErr (List (String × RVal)) := do
  let a ← groupEntries L.full L.means "benign" L.tasks
  let b ← groupEntries L.full L.means "adversarial" L.adversarial_tasks
  let c ← groupEntries L.full L.means "perturbation" L.perturbations
  let d ← ledgerEntries L.computational_resource_dict
  .ok (a ++ b ++ c ++ d)

/-- A multi-channel image as stored in the training set, a rank-3 array of
shape width by height by channels, modelled as nested lists. -/
abbrev Image := List (List (List ℚ))

/-- Model of `np.transpose(img, (2, 0, 1))`: move the channel axis to the
front, so that `result[c][w][h] = img[w][h][c]`. -/
def npTranspose201 (img : Image) : Image :=
  (img.map List.transpose).transpose

/-- Model of `np.transpose(img, (1, 2, 0))`: move the first axis to the back,
so that `result[w][h][c] = img[c][w][h]`; the inverse of `npTranspose201` on
well-formed images. -/
def npTranspose120 (img : Image) : Image :=
  img.transpose.map List.transpose

/-- The attack object of the scenario (an external collaborator): `poison`
receives a channels-first image and the label list `[tgt]` and returns the
poisoned image together with the assigned label. -/
structure Attack where
  poison : Image → List ℤ → Image × ℤ

/-- Loop body of `poison_dataset` (poisoning_gtsrb_scenario.py lines 38-46):
a sample whose label equals `src` and whose index is in `poisoned_indices` is
replaced by the attack-poisoned image (converted to channels-first for the
attack and back afterwards) with the label the attack assigned; every other
sample is kept as is.  Out-of-range indexing, an IndexError in Python, is
modelled by the `getD` defaults; the theorems below stay inside the range. -/
def poisonEntry (src_imgs : List Image) (src_lbls : List ℤ) (src tgt : ℤ)
    (attack : Attack) (poisoned_indices : List ℕ) (idx : ℕ) : Image × ℤ :=
  if src_lbls.getD idx 0 = src ∧ idx ∈ poisoned_indices then
    let src_img := npTranspose201 (src_imgs.getD idx [])
    let pr := attack.poison src_img [tgt]
    (npTranspose120 pr.1, pr.2)
  else (src_imgs.getD idx [], src_lbls.getD idx 0)

/-- Model of `poison_dataset` (poisoning_gtsrb_scenario.py lines 27-50): the
loop over `range(ds_size)` applies `poisonEntry` at each index, appending to
`poison_x` and `poison_y` in index order. -/
def poison_dataset (src_imgs : List Image) (src_lbls : List ℤ) (src tgt : ℤ)
    (ds_size : ℕ) (attack : Attack) (poisoned_indices : List ℕ) :
    List Image × List ℤ :=
  ((List.range ds_size).map
      (fun i => (poisonEntry src_imgs src_lbls src tgt attack poisoned_indices i).1),
   (List.range ds_size).map
      (fun i => (poisonEntry src_imgs src_lbls src tgt attack poisoned_indices i).2))

/-- Model of `np.bincount(y)[k]`: the number of occurrences of `k` in `y`
when `k` is a valid index into the bincount array (whose length is one more
than the maximum label, or zero for an empty `y`), and `none` (IndexError)
otherwise.  Labels are nonnegative as `np.bincount` itself requires. -/
def npBincountGet (y : List ℕ) (k : ℕ) : Option ℕ :=
  let len := match y with
             | [] => 0
             | _ => y.foldr max 0 + 1
  if k < len then some (y.count k) else none

/-- Modelled from the spec: `np.random.choice(pool, size, replace=False)`
(an external library call; §3 of the spec: a uniform-random subset drawn
without replacement, seeded).  The generator is modelled as an arbitrary
stream of draws `rand`; each step picks the element at position
`draw mod pool-length` and removes it from the pool.  Every theorem below
holds for every stream, hence for the seeded numpy generator in
particular. -/
def sampleWithoutReplacement : ℕ → List ℕ → List ℕ → List ℕ
  | 0, _, _ => []
  | _ + 1, _, [] => []
  | n + 1, rs, pool =>
      let j := rs.headD 0 % pool.length
      let x := pool.getD j 0
      x :: sampleWithoutReplacement n rs.tail (pool.erase x)

/-- Model of the poisoned-index selection of `GTSRB._evaluate`
(poisoning_gtsrb_scenario.py lines 141-151) in non-preloaded poisoning mode:
`total_count = np.bincount(y)[src]`, `poison_count = int(f * total_count)`
(truncation, which is the floor for the nonnegative products that a fraction
in the unit interval produces), `src_indices = np.where(y == src)[0]`, then a
without-replacement draw of `poison_count` indices.  `none` models the two
numpy error exits: the bincount IndexError and the ValueError of
`np.random.choice` when the requested size exceeds the pool. -/
def select_poisoned_indices (rand : List ℕ) (y : List ℕ) (src : ℕ)
    (fraction_poisoned : ℚ) : Option (List ℕ) :=
  match npBincountGet y src with
  | none => none
  | some total_count =>
      let poison_count := (⌊fraction_poisoned * (total_count : ℚ)⌋).toNat
      let src_indices :=
        (List.range y.length).filter (fun i => y.getD i 0 = src)
      if poison_count ≤ src_indices.length then
        some (sampleWithoutReplacement poison_count rand src_indices)
      else none

/-- Model of the terminal results assembly of `GTSRB._evaluate`
(poisoning_gtsrb_scenario.py lines 239-242 and 308-316).  The four accuracy
values are means of `MetricList`s fed by external model predictions and enter
as parameters; the control flow on `poison_dataset_flag` and the attack type
is the code under scrutiny.  `attack_type` is `config["attack"].get("type")`,
hence an optional string. -/
def gtsrbFinalResults (poison_dataset_flag : Bool) (attack_type : Option String)
    (validation_accuracy validation_accuracy_targeted_class
     test_accuracy targeted_misclassification_accuracy : ℝ) :
    List (String × ℝ) :=
  let results := [("validation_accuracy", validation_accuracy),
                  ("validation_accuracy_targeted_class",
                    validation_accuracy_targeted_class)]
  if poison_dataset_flag = true ∨ attack_type = some "preloaded" then
    results ++ [("test_accuracy", test_accuracy),
                ("targeted_misclassification_accuracy",
                  targeted_misclassification_accuracy)]
  else results

/-- C1: the claim says the ledger entry is updated on every exit path of a
profiled `resource_context` region, including an early exit via an error.
The generator body has no try/finally around its `yield`, so on an error exit
every statement after the `yield` is skipped: at the concrete failing input
(name `Name`, Basic profiler, empty ledger, a region that raises after one
second) the ledger comes back unchanged, with no entry for `Name` at all,
while the same region exiting normally produces the entry with
`execution_count` one and `total_time` one. -/
theorem resource_context_error_exit_skips_ledger :
    resource_context "Name" (some Profiler.basic) 1 "" [] RegionExit.raised = []
    ∧ (resource_context "Name" (some Profiler.basic) 1 "" []
        RegionExit.normal).lookup "Name" =
      some ⟨some 1, some 1, none⟩ := by
  constructor
  · rfl
  · norm_num [resource_context, List.lookup]
    decide

/-- C4, counterexample: with `n = 1` and identically shaped inputs,
`top_n_categorical_accuracy` does not fail at all: it delegates to
`categorical_accuracy`, which succeeds on equal shapes, so at
`y = y_pred = [1]`, `n = 1` it returns `[1]` and no error. -/
theorem top_n_same_shape_n1_succeeds :
    top_n_categorical_accuracy (.vec [1]) (.vec [1]) 1 = .ok [1]
    ∧ ∀ e : MErr, top_n_categorical_accuracy (.vec [1]) (.vec [1]) 1 ≠ .error e := by
  have h : top_n_categorical_accuracy (.vec [1]) (.vec [1]) 1 = .ok [1] := by
    norm_num [top_n_categorical_accuracy, categorical_accuracy, wrapPair,
      NPArr.npShape]
  exact ⟨h, fun e he => by rw [h] at he; exact Except.noConfusion he⟩

/-- C4, amended: for every `n` greater than or equal to two and every pair of
identically shaped inputs, `top_n_categorical_accuracy` fails with the
same-shape ShapeMismatch error (`Must supply multiple predictions`); for
`n = 1` it instead delegates to `categorical_accuracy`. -/
theorem top_n_same_shape_error (y y_pred : NPArr) (n : ℤ)
    (hn : 2 ≤ n) (hsh : y.npShape = y_pred.npShape) :
    top_n_categorical_accuracy y y_pred n = .error .mustSupplyMultiple := by
  have h1 : ¬ n < 1 := by omega
  have h2 : n ≠ 1 := by omega
  cases y <;> cases y_pred <;>
    simp_all [top_n_categorical_accuracy, wrapPair, NPArr.npShape,
      NPArr.npLen]

/-- C4, witness for the amended theorem at `n = 2`, `y = [1, 2]`,
`y_pred = [3, 4]`. -/
theorem top_n_same_shape_error_witness :
    top_n_categorical_accuracy (.vec [1, 2]) (.vec [3, 4]) 2 =
      .error .mustSupplyMultiple :=
  top_n_same_shape_error (.vec [1, 2]) (.vec [3, 4]) 2 (by norm_num) (by rfl)

/-- C7: `MetricList.mean` on zero accumulated scores always fails with the
EmptyAggregate error (a ZeroDivisionError in Python), never silently
returning a value: on every freshly constructed list, and on every list
immediately after `clear`, whatever data it held before. -/
theorem metricList_mean_empty :
    (∀ (name : String) (fn : Option (NPArr → NPArr → Except MErr (List ℝ)))
       (ml : MetricList), mkMetricList name fn = Except.ok ml →
         ml.mean = .error (.zeroDivision "division by zero"))
    ∧ (∀ m : MetricList,
        m.clear.mean = .error (.zeroDivision "division by zero")) := by
  constructor
  · intro name fn ml h
    cases fn with
    | some f =>
        simp only [mkMetricList] at h
        cases h
        rfl
    | none =>
        simp only [mkMetricList] at h
        cases hs : SUPPORTED_METRICS name with
        | none => rw [hs] at h; cases h
        | some f => rw [hs] at h; cases h; rfl
  · intro m
    rfl

/-- C7, witness: a freshly constructed `categorical_accuracy` list, and a
cleared list that previously held two scores. -/
theorem metricList_mean_empty_witness :
    MetricList.mean ⟨"categorical_accuracy", categorical_accuracy, []⟩ =
      .error (.zeroDivision "division by zero")
    ∧ (MetricList.clear ⟨"categorical_accuracy", categorical_accuracy,
        [1, 0]⟩).mean = .error (.zeroDivision "division by zero") :=
  ⟨metricList_mean_empty.1 "categorical_accuracy" none _ rfl,
   metricList_mean_empty.2 _⟩

/-- C10: the `MetricsLogger` constructor assigns a fresh empty ledger,
ignoring its `computational_resource_dict` argument entirely, so the resource
ledger of every constructed logger is empty whatever was passed; and on a
freshly constructed logger `results` emits no resource-ledger entries (shown
here on a logger with no metric groups, where the result mapping is empty
outright, for every supplied dictionary). -/
theorem metricsLogger_fresh_ledger :
    (∀ (task pert : MetricNames) (means full : Bool)
       (prof : Option Profiler) (crd : Option Ledger) (L : MetricsLogger),
        mkMetricsLogger task pert means full prof crd = Except.ok L →
          L.computational_resource_dict = [])
    ∧ (∀ (means full : Bool) (prof : Option Profiler) (crd : Option Ledger)
         (L : MetricsLogger),
        mkMetricsLogger none none means full prof crd = Except.ok L →
          L.results = Except.ok []) := by
  constructor
  · intro task pert means full prof crd L h
    simp only [mkMetricsLogger, bind, Except.bind] at h
    cases h1 : generate_counters task with
    | error e => rw [h1] at h; cases h
    | ok ts =>
        rw [h1] at h
        cases h2 : generate_counters pert with
        | error e => rw [h2] at h; cases h
        | ok ps => rw [h2] at h; cases h; rfl
  · intro means full prof crd L h
    have h0 : mkMetricsLogger none none means full prof crd =
        Except.ok ⟨[], [], [], means, full, []⟩ := rfl
    rw [h0] at h
    cases h
    rfl

/-- C10, witness: a logger built with a task metric and a nonempty dictionary
argument, and a metric-free logger whose results are empty. -/
theorem metricsLogger_fresh_ledger_witness :
    (MetricsLogger.mk [⟨"categorical_accuracy", categorical_accuracy, []⟩]
        [⟨"categorical_accuracy", categorical_accuracy, []⟩] [] true false
        []).computational_resource_dict = []
    ∧ MetricsLogger.results ⟨[], [], [], true, true, []⟩ = Except.ok [] :=
  ⟨metricsLogger_fresh_ledger.1 (some (.inl "categorical_accuracy")) none
      true false none (some [("region", ⟨some 1, some 1, none⟩)]) _ rfl,
   metricsLogger_fresh_ledger.2 true true none
      (some [("region", ⟨some 1, some 1, none⟩)]) _ rfl⟩

/-- C8: when `poison_dataset_flag` is false and the attack type is not
`preloaded`, the terminal results mapping holds exactly the two clean
accuracy entries, and the two poisoned-test keys are absent rather than
present with value zero. -/
theorem gtsrb_results_clean_only (attack_type : Option String)
    (va vat ta tma : ℝ) (hat : attack_type ≠ some "preloaded") :
    gtsrbFinalResults false attack_type va vat ta tma =
      [("validation_accuracy", va),
       ("validation_accuracy_targeted_class", vat)]
    ∧ "test_accuracy" ∉
        (gtsrbFinalResults false attack_type va vat ta tma).map Prod.fst
    ∧ "targeted_misclassification_accuracy" ∉
        (gtsrbFinalResults false attack_type va vat ta tma).map Prod.fst := by
  have h : gtsrbFinalResults false attack_type va vat ta tma =
      [("validation_accuracy", va),
       ("validation_accuracy_targeted_class", vat)] := by
    simp [gtsrbFinalResults, hat]
  refine ⟨h, ?_, ?_⟩ <;> rw [h] <;> simp

/-- C8, witness at `attack_type = none` and zero accuracies. -/
theorem gtsrb_results_clean_only_witness :
    gtsrbFinalResults false none 0 0 0 0 =
      [("validation_accuracy", 0),
       ("validation_accuracy_targeted_class", 0)]
    ∧ "test_accuracy" ∉
        (gtsrbFinalResults false none 0 0 0 0).map Prod.fst
    ∧ "targeted_misclassification_accuracy" ∉
        (gtsrbFinalResults false none 0 0 0 0).map Prod.fst :=
  gtsrb_results_clean_only none 0 0 0 0 (by simp)

/-- Indexing into a map over `List.range`: helper for the frame theorems. -/
theorem getD_map_range {α : Type} (n : ℕ) (f : ℕ → α) (i : ℕ) (d : α)
    (h : i < n) : ((List.range n).map f).getD i d = f i := by
  rw [List.getD_eq_getElem?_getD, List.getElem?_map, List.getElem?_range h]
  rfl

/-- C2: when every poisoned index carries the source label and the attack
returns the labels it is given, `poison_dataset` leaves every sample whose
index is outside `poisoned_indices` unchanged (same input, same label) and
replaces every sample whose index is in `poisoned_indices` by the
attack-poisoned input (channels-first for the attack and back) with label
`tgt`. -/
theorem poison_dataset_frame (src_imgs : List Image) (src_lbls : List ℤ)
    (src tgt : ℤ) (attack : Attack) (poisoned_indices : List ℕ)
    (hsrc : ∀ i ∈ poisoned_indices, src_lbls.getD i 0 = src)
    (hlbl : ∀ img, (attack.poison img [tgt]).2 = tgt)
    (idx : ℕ) (hidx : idx < src_lbls.length) :
    (idx ∉ poisoned_indices →
      (poison_dataset src_imgs src_lbls src tgt src_lbls.length attack
          poisoned_indices).1.getD idx [] = src_imgs.getD idx []
      ∧ (poison_dataset src_imgs src_lbls src tgt src_lbls.length attack
          poisoned_indices).2.getD idx 0 = src_lbls.getD idx 0)
    ∧ (idx ∈ poisoned_indices →
      (poison_dataset src_imgs src_lbls src tgt src_lbls.length attack
          poisoned_indices).1.getD idx [] =
        npTranspose120
          (attack.poison (npTranspose201 (src_imgs.getD idx [])) [tgt]).1
      ∧ (poison_dataset src_imgs src_lbls src tgt src_lbls.length attack
          poisoned_indices).2.getD idx 0 = tgt) := by
  unfold poison_dataset
  rw [getD_map_range _ _ _ _ hidx, getD_map_range _ _ _ _ hidx]
  constructor
  · intro hni
    have hc : ¬ (src_lbls.getD idx 0 = src ∧ idx ∈ poisoned_indices) :=
      fun hand => hni hand.2
    rw [poisonEntry, if_neg hc]
    exact ⟨rfl, rfl⟩
  · intro hmem
    have hc : src_lbls.getD idx 0 = src ∧ idx ∈ poisoned_indices :=
      ⟨hsrc idx hmem, hmem⟩
    rw [poisonEntry, if_pos hc]
    exact ⟨rfl, hlbl _⟩

/-- C2, witness: one sample of label three, poisoned towards label five by an
attack that keeps the image and returns the label it was given. -/
theorem poison_dataset_frame_witness :
    (0 ∉ ([0] : List ℕ) →
      (poison_dataset [[[[1]]]] [3] 3 5 1 ⟨fun img _ => (img, 5)⟩
          [0]).1.getD 0 [] = ([[[1]]] : Image)
      ∧ (poison_dataset [[[[1]]]] [3] 3 5 1 ⟨fun img _ => (img, 5)⟩
          [0]).2.getD 0 0 = 3)
    ∧ (0 ∈ ([0] : List ℕ) →
      (poison_dataset [[[[1]]]] [3] 3 5 1 ⟨fun img _ => (img, 5)⟩
          [0]).1.getD 0 [] =
        npTranspose120 (npTranspose201 ([[[1]]] : Image))
      ∧ (poison_dataset [[[[1]]]] [3] 3 5 1 ⟨fun img _ => (img, 5)⟩
          [0]).2.getD 0 0 = 5) :=
  poison_dataset_frame [[[[1]]]] [3] 3 5 ⟨fun img _ => (img, 5)⟩ [0]
    (by decide) (fun _ => rfl) 0 (by decide)

/-- Every element drawn by `sampleWithoutReplacement` comes from the pool. -/
theorem sampleWithoutReplacement_subset (n : ℕ) (rs pool : List ℕ) :
    ∀ x ∈ sampleWithoutReplacement n rs pool, x ∈ pool := by
  induction n generalizing rs pool with
  | zero => intro x hx; cases hx
  | succ n ih =>
      intro x hx
      cases pool with
      | nil => cases hx
      | cons hd t =>
          simp only [sampleWithoutReplacement] at hx
          rcases List.mem_cons.mp hx with rfl | hx'
          · have hjlt : rs.headD 0 % (hd :: t).length < (hd :: t).length :=
              Nat.mod_lt _ (by simp)
            rw [List.getD_eq_getElem _ _ hjlt]
            exact List.getElem_mem _
          · exact List.erase_subset _ _ (ih _ _ _ hx')

/-- A draw without replacement from a duplicate-free pool is
duplicate-free. -/
theorem sampleWithoutReplacement_nodup (n : ℕ) (rs pool : List ℕ)
    (hnd : pool.Nodup) : (sampleWithoutReplacement n rs pool).Nodup := by
  induction n generalizing rs pool with
  | zero => exact List.nodup_nil
  | succ n ih =>
      cases pool with
      | nil => exact List.nodup_nil
      | cons hd t =>
          simp only [sampleWithoutReplacement]
          refine List.nodup_cons.mpr ⟨?_, ih _ _ (hnd.erase _)⟩
          intro hmem
          have hsub := sampleWithoutReplacement_subset n rs.tail _ _ hmem
          exact ((hnd.mem_erase_iff).mp hsub).1 rfl

/-- A draw without replacement of at most the pool size has exactly the
requested size. -/
theorem sampleWithoutReplacement_length (n : ℕ) (rs pool : List ℕ)
    (h : n ≤ pool.length) : (sampleWithoutReplacement n rs pool).length = n := by
  induction n generalizing rs pool with
  | zero => rfl
  | succ n ih =>
      cases pool with
      | nil => simp at h
      | cons hd t =>
          simp only [sampleWithoutReplacement, List.length_cons]
          rw [ih]
          have hjlt : rs.headD 0 % (t.length + 1) < (hd :: t).length := by
            simpa using Nat.mod_lt (rs.headD 0) (Nat.succ_pos t.length)
          have hx : (hd :: t).getD (rs.headD 0 % (t.length + 1)) 0 ∈ hd :: t := by
            rw [List.getD_eq_getElem _ _ hjlt]
            exact List.getElem_mem _
          rw [List.length_erase_of_mem hx]
          simp only [List.length_cons] at h ⊢
          omega

/-- Counting over `List.range` through `getD` equals counting the list
itself: helper for the selection theorem. -/
theorem countP_range_getD (l : List ℕ) (p : ℕ → Bool) :
    (List.range l.length).countP (fun i => p (l.getD i 0)) = l.countP p := by
  induction l with
  | nil => rfl
  | cons a t ih =>
      rw [List.length_cons, List.range_succ_eq_map, List.countP_cons,
        List.countP_map, List.countP_cons]
      simp only [Function.comp_def, List.getD_cons_succ, List.getD_cons_zero]
      rw [ih]

/-- C3: whenever the non-preloaded selection step completes (returns `some`),
the selected index set lies inside the indices labelled with the source
class, contains no repeated index, and has size exactly the floor of
`fraction_poisoned` times the number of source-class labels. -/
theorem select_poisoned_indices_spec (rand y : List ℕ) (src : ℕ)
    (fraction_poisoned : ℚ) (s : List ℕ)
    (h0 : 0 ≤ fraction_poisoned) (h1 : fraction_poisoned ≤ 1)
    (hs : select_poisoned_indices rand y src fraction_poisoned = some s) :
    (∀ i ∈ s, i < y.length ∧ y.getD i 0 = src)
    ∧ s.Nodup
    ∧ s.length = (⌊fraction_poisoned * (y.count src : ℚ)⌋).toNat := by
  unfold select_poisoned_indices at hs
  cases hb : npBincountGet y src with
  | none => rw [hb] at hs; cases hs
  | some tc =>
      rw [hb] at hs
      dsimp only at hs
      have htc : tc = y.count src := by
        simp only [npBincountGet] at hb
        split at hb
        · cases hb; rfl
        · cases hb
      by_cases hg : (⌊fraction_poisoned * (tc : ℚ)⌋).toNat ≤
          ((List.range y.length).filter (fun i => y.getD i 0 = src)).length
      · rw [if_pos hg] at hs
        cases hs
        refine ⟨?_, ?_, ?_⟩
        · intro i hi
          have hmem := sampleWithoutReplacement_subset _ _ _ i hi
          have hmf := List.mem_filter.mp hmem
          exact ⟨List.mem_range.mp hmf.1, of_decide_eq_true hmf.2⟩
        · exact sampleWithoutReplacement_nodup _ _ _
            ((List.nodup_range _).filter _)
        · rw [sampleWithoutReplacement_length _ _ _ hg, htc]
      · rw [if_neg hg] at hs
        cases hs

/-- C3, witness: five labels with three occurrences of the source class
three, fraction one half, draw stream `[5]`: the selection returns the single
index three, which is in range, labelled three, duplicate-free and of size
`floor((1/2) * 3) = 1`. -/
theorem select_poisoned_indices_spec_witness :
    (∀ i ∈ ([3] : List ℕ), i < ([3, 0, 3, 3, 1] : List ℕ).length
        ∧ ([3, 0, 3, 3, 1] : List ℕ).getD i 0 = 3)
    ∧ ([3] : List ℕ).Nodup
    ∧ ([3] : List ℕ).length =
        (⌊(1/2 : ℚ) * ((([3, 0, 3, 3, 1] : List ℕ).count 3 : ℕ) : ℚ)⌋).toNat := by
  have hb : npBincountGet [3, 0, 3, 3, 1] 3 = some 3 := by decide
  have hsel : select_poisoned_indices [5] [3, 0, 3, 3, 1] 3 (1/2) = some [3] := by
    unfold select_poisoned_indices
    rw [hb]
    dsimp only
    have h2 : (⌊(1/2 : ℚ) * ((3 : ℕ) : ℚ)⌋).toNat = 1 := by norm_num
    rw [h2]
    decide
  exact select_poisoned_indices_spec [5] [3, 0, 3, 3, 1] 3 (1/2) [3]
    (by norm_num) (by norm_num) hsel

/-- Differences of a list with its pointwise zero image are the squares of
the list: helper for the snr theorems. -/
theorem zip_zero_sub_sq (s : List ℚ) :
    (s.zip (s.map (fun _ => (0:ℚ)))).map (fun p => (p.1 - p.2) ^ 2) =
      s.map (fun a => a ^ 2) := by
  induction s with
  | nil => rfl
  | cons a t ih => simp only [List.map_cons, List.zip_cons_cons, ih, sub_zero]

/-- On a sample of nonzero signal power against an all-zero adversarial
sample, `snrSample` returns one: noise equals signal there. -/
theorem snrSample_allzero (s : List ℚ)
    (hs : ((s.map (fun a => a ^ 2)).sum : ℚ) ≠ 0) :
    snrSample (NPArr.vec s) (NPArr.vec (s.map (fun _ => 0))) =
      Except.ok (1 : ℝ) := by
  have hne : ((s.length : ℚ)) ≠ 0 := by
    cases s with
    | nil => simp at hs
    | cons a t =>
        simp only [List.length_cons]
        exact_mod_cast Nat.cast_add_one_ne_zero (R := ℚ) t.length
  simp only [snrSample, NPArr.npShape, List.length_map, ne_eq, not_true_eq_false]
  rw [if_neg (by simp)]
  rw [zip_zero_sub_sq]
  have hq : ((s.map (fun a => a ^ 2)).sum / (s.length : ℚ)) ≠ 0 :=
    div_ne_zero hs hne
  rw [div_self hq, Rat.cast_one]

/-- C5, counterexample: at the one-sample batch `x = [[1]]` with all-zero
`x_adv = [[0]]`, `snr` returns `[1]`, not `[0]`: the noise there equals the
signal, so the ratio is one, not zero. -/
theorem snr_allzero_cex :
    snr (NPArr.mat [[1]]) (NPArr.mat [[0]]) ≠ Except.ok [(0:ℝ)] := by
  have h1 : snrSample (NPArr.vec [(1:ℚ)]) (NPArr.vec [(0:ℚ)]) =
      Except.ok (1 : ℝ) := snrSample_allzero [(1:ℚ)] (by norm_num)
  intro hcon
  have h2 : snr (NPArr.mat [[1]]) (NPArr.mat [[0]]) = Except.ok [(1:ℝ)] := by
    simp only [snr, NPArr.npIter, List.map_cons, List.map_nil,
      List.zip_cons_cons, List.zip_nil_right, List.length_cons,
      List.length_nil]
    rw [if_neg (by norm_num), List.mapM_cons, h1]
    rfl
  rw [h2] at hcon
  simp at hcon

/-- The per-sample loop of `snr` on an all-zero adversarial batch: helper
induction for the amended C5 theorem. -/
theorem snr_mapM_allzero (x : List (List ℚ))
    (h : ∀ s ∈ x, ((s.map (fun a => a ^ 2)).sum : ℚ) ≠ 0) :
    ((x.map NPArr.vec).zip
        ((x.map (fun s => s.map (fun _ => (0:ℚ)))).map NPArr.vec)).mapM
      (fun p => snrSample p.1 p.2) = Except.ok (x.map (fun _ => (1:ℝ))) := by
  induction x with
  | nil => rfl
  | cons s t ih =>
      simp only [List.map_cons, List.zip_cons_cons, List.mapM_cons]
      rw [snrSample_allzero s (h s (List.mem_cons_self s t)),
        ih (fun r hr => h r (List.mem_cons_of_mem s hr))]
      rfl

/-- C5, amended: for every batch of rank-1 samples, each with nonzero signal
power, `snr` against the all-zero adversarial batch of the same shape returns
one for every sample (zero decibels), not zero: the noise term `x - 0` equals
the signal. -/
theorem snr_allzero_one (x : List (List ℚ))
    (h : ∀ s ∈ x, ((s.map (fun a => a ^ 2)).sum : ℚ) ≠ 0) :
    snr (NPArr.mat x) (NPArr.mat (x.map (fun s => s.map (fun _ => 0)))) =
      Except.ok (x.map (fun _ => (1:ℝ))) := by
  simp only [snr, NPArr.npIter, List.length_map]
  rw [if_neg (by simp)]
  exact snr_mapM_allzero x h

/-- C5, witness for the amended theorem at the batch `[[1]]`. -/
theorem snr_allzero_one_witness :
    snr (NPArr.mat [[1]]) (NPArr.mat (([[1]] : List (List ℚ)).map
        (fun s => s.map (fun _ => 0)))) =
      Except.ok (([[1]] : List (List ℚ)).map (fun _ => (1:ℝ))) :=
  snr_allzero_one [[1]] (by norm_num)

/-- The two-norm of an all-zero difference row vanishes: helper for the
identical-inputs theorem. -/
theorem npLinalgNorm_self_sub_zero (r : List ℚ) :
    npLinalgNorm ((r.zip r).map (fun q => q.1 - q.2)) (.val 2) = 0 := by
  have hz : (r.zip r).map (fun q => q.1 - q.2) = r.map (fun _ => (0:ℚ)) := by
    induction r with
    | nil => rfl
    | cons a t ih => simp only [List.map_cons, List.zip_cons_cons, ih, sub_self]
  rw [hz]
  simp only [npLinalgNorm]
  rw [if_neg (by norm_num : (2:ℝ) ≠ 0)]
  have hmap : (r.map (fun _ => (0:ℚ))).map (fun a : ℚ => |(a : ℝ)| ^ (2:ℝ)) =
      r.map (fun _ => (0:ℝ)) := by
    rw [List.map_map]
    refine List.map_congr_left (fun a _ => ?_)
    simp [Real.zero_rpow (by norm_num : (2:ℝ) ≠ 0)]
  rw [hmap]
  have hsum : (r.map (fun _ => (0:ℝ))).sum = 0 := by
    apply List.sum_eq_zero
    intro y hy
    obtain ⟨a, -, rfl⟩ := List.mem_map.mp hy
    rfl
  rw [hsum]
  exact Real.zero_rpow (by norm_num)

/-- C9: on identical inputs of rank at least one, `l2` returns one entry per
sample, every entry zero: the per-sample difference vector vanishes and so
does its two-norm. -/
theorem l2_self_zero (x : NPArr) (h : x.ndim ≠ 0) :
    l2 x x = Except.ok (((toRows x).getD []).map (fun _ => (0:ℝ))) := by
  have hall : ∀ rows : List (List ℚ),
      (rows.zip rows).map (fun pr =>
        npLinalgNorm ((pr.1.zip pr.2).map (fun q => q.1 - q.2)) (.val 2)) =
      rows.map (fun _ => (0:ℝ)) := by
    intro rows
    induction rows with
    | nil => rfl
    | cons r t iht =>
        simp only [List.map_cons, List.zip_cons_cons, iht,
          npLinalgNorm_self_sub_zero]
  cases x with
  | scalar q => exact absurd rfl h
  | vec v =>
      simp only [l2, norm, toRows, Option.getD_some]
      rw [if_pos trivial, hall]
  | mat m =>
      simp only [l2, norm, toRows, Option.getD_some]
      rw [if_pos trivial, hall]

/-- C9, witness at the two-sample batch `[1, 2]`. -/
theorem l2_self_zero_witness :
    l2 (NPArr.vec [1, 2]) (NPArr.vec [1, 2]) =
      Except.ok (((toRows (NPArr.vec [1, 2])).getD []).map (fun _ => (0:ℝ))) :=
  l2_self_zero (NPArr.vec [1, 2]) (by decide)

/-- C6, counterexample: `results()` iterates the adversarial group too, so on
a logger with `task = categorical_accuracy` and `means = true` after only the
benign `update_task([1,0,1],[1,1,1])`, the still-empty adversarial list makes
`results()` raise the EmptyAggregate ZeroDivisionError naming
`adversarial_categorical_accuracy`: no mapping with the benign mean is ever
returned. -/
theorem metricsLogger_benign_only_results_error :
    (mkMetricsLogger (some (Sum.inl "categorical_accuracy")) none true false
        none none >>= fun L =>
      L.update_task (.vec [1, 0, 1]) (.vec [1, 1, 1]) false >>=
        MetricsLogger.results) =
      .error (.zeroDivision
        "No values to calculate mean in adversarial_categorical_accuracy") := rfl

/-- C6, amended: after the benign `update_task([1,0,1],[1,1,1])` together
with an adversarial update (here with the same pair), `results()` succeeds
and maps `benign_mean_categorical_accuracy` to exactly two thirds. -/
theorem metricsLogger_benign_mean_two_thirds :
    ((mkMetricsLogger (some (Sum.inl "categorical_accuracy")) none true false
        none none >>= fun L =>
      L.update_task (.vec [1, 0, 1]) (.vec [1, 1, 1]) false >>= fun L2 =>
      L2.update_task (.vec [1, 0, 1]) (.vec [1, 1, 1]) true >>=
        MetricsLogger.results).map
      (fun r => r.lookup "benign_mean_categorical_accuracy")) =
      Except.ok (some (RVal.num (2 / 3))) := by
  have h : ((mkMetricsLogger (some (Sum.inl "categorical_accuracy")) none true
        false none none >>= fun L =>
      L.update_task (.vec [1, 0, 1]) (.vec [1, 1, 1]) false >>= fun L2 =>
      L2.update_task (.vec [1, 0, 1]) (.vec [1, 1, 1]) true >>=
        MetricsLogger.results).map
      (fun r => r.lookup "benign_mean_categorical_accuracy")) =
      Except.ok (some (RVal.num (([(1:ℝ), 0, 1]).sum / ((3:ℕ) : ℝ)))) := rfl
  rw [h]
  have hv : (([(1:ℝ), 0, 1]).sum / ((3:ℕ) : ℝ)) = 2 / 3 := by
    norm_num [List.sum_cons, List.sum_nil]
  rw [hv]

end Armory
